import Mathlib

/-!
# Verification of the pyjvm primitive-limits / coercion boundary layer

The repository source (`src/jvm/primitive_limits.h`) defines the inclusive
bounds of the Java primitive types as preprocessor constants.  The coercion
engine (`host_to_native` / `native_to_host`) described by the specification is
not part of the visible source; following the spec it is modelled here from
the spec's words.  Host doubles are modelled as exact rational numbers (every
finite IEEE double is a rational), with infinities and NaN as separate
constructors.
-/

namespace Pyjvm

/-! ## Boundary constants, translated from `src/jvm/primitive_limits.h` -/

def JBYTE_MIN : ℤ := -0x80
def JBYTE_MAX : ℤ := 0x7F
def JSHORT_MIN : ℤ := -0x8000
def JSHORT_MAX : ℤ := 0x7FFF
def JINT_MIN : ℤ := -0x80000000
def JINT_MAX : ℤ := 0x7FFFFFFF
def JLONG_MIN : ℤ := -0x8000000000000000
def JLONG_MAX : ℤ := 0x7FFFFFFFFFFFFFFF
def JCHAR_MAX : ℤ := 0xFFFF

/-- The exact rational value of the decimal literal `3.40282347E+38` from
`src/jvm/primitive_limits.h`: `340282347 * 10^30`. -/
def JFLOAT_MAX : ℚ := 340282347 * 10 ^ 30

/-- Modelled from the spec: the double bound is missing from the visible
source; §3 says "double: full IEEE double range", so the maximum finite
IEEE double magnitude `(2^53 - 1) * 2^971` is used. -/
def JDOUBLE_MAX : ℚ := (2 ^ 53 - 1) * 2 ^ 971

/-- The IEEE single-precision maximum finite magnitude, `(2^24 - 1) * 2^104`
(spec §3: the float bound is "the IEEE single-precision maximum finite
magnitude"). -/
def ieeeSingleMaxFinite : ℚ := (2 ^ 24 - 1) * 2 ^ 104

/-! ## Data model (spec §3) -/

/-- Modelled from the spec: the closed enumeration of the eight fixed-width
primitive kinds (spec §3, `PrimitiveKind`). -/
inductive PrimitiveKind where
  | byte | short | int | long | char | float | double | boolean
  deriving DecidableEq, Repr

/-- Modelled from the spec: a `BoundaryEntry` associates one `PrimitiveKind`
with its inclusive `min`, `max` and a `signed` flag (spec §3). -/
structure BoundaryEntry where
  min : ℚ
  max : ℚ
  signed : Bool
  deriving DecidableEq, Repr

/-- Modelled from the spec: the Boundary Table lookup (spec §4.1), a total
function from kind to entry.  Integer bounds come from the source constants
in `src/jvm/primitive_limits.h`; for float the max is the maximum finite
magnitude with negative values bounded by its negation (spec §3); double and
boolean entries follow spec §3 ("double: full IEEE double range; boolean: the
two-element set \x7b0,1\x7d"). -/
def bounds_for : PrimitiveKind → BoundaryEntry
  | .byte => ⟨(JBYTE_MIN : ℚ), (JBYTE_MAX : ℚ), true⟩
  | .short => ⟨(JSHORT_MIN : ℚ), (JSHORT_MAX : ℚ), true⟩
  | .int => ⟨(JINT_MIN : ℚ), (JINT_MAX : ℚ), true⟩
  | .long => ⟨(JLONG_MIN : ℚ), (JLONG_MAX : ℚ), true⟩
  | .char => ⟨0, (JCHAR_MAX : ℚ), false⟩
  | .float => ⟨-JFLOAT_MAX, JFLOAT_MAX, true⟩
  | .double => ⟨-JDOUBLE_MAX, JDOUBLE_MAX, true⟩
  | .boolean => ⟨0, 1, false⟩

/-- Modelled from the spec: a host value is an arbitrary-precision integer or
a double-precision float (spec §4.2); finite doubles are exact rationals,
with infinities and NaN distinguished (spec §7, NotFinite). -/
inductive HostValue where
  | int (n : ℤ)
  | float (q : ℚ)
  | posInf
  | negInf
  | nan
  deriving DecidableEq, Repr

/-- Modelled from the spec: a fixed-width native value (spec §2, §4.2); each
integer variant stores its two's-complement bit pattern as an integer. -/
inductive NativeValue where
  | jbyte (bits : ℤ)
  | jshort (bits : ℤ)
  | jint (bits : ℤ)
  | jlong (bits : ℤ)
  | jchar (bits : ℤ)
  | jfloat (val : ℚ)
  | jdouble (val : ℚ)
  | jboolean (b : Bool)
  deriving DecidableEq, Repr

/-- Modelled from the spec: the error taxonomy of spec §7. -/
inductive CoercionError where
  | OutOfRange
  | NegativeForUnsigned
  | NonIntegral
  | NotFinite
  deriving DecidableEq, Repr

/-! ## Coercion Engine (spec §4.2) -/

/-- Interpret a bit pattern as a `w`-bit two's-complement signed integer. -/
def asSigned (w : ℕ) (bits : ℤ) : ℤ := (bits + 2 ^ (w - 1)) % 2 ^ w - 2 ^ (w - 1)

/-- Interpret a bit pattern as a `w`-bit unsigned integer. -/
def asUnsigned (w : ℕ) (bits : ℤ) : ℤ := bits % 2 ^ w

/-- Modelled from the spec: range-check an exact host integer against the
Boundary Table entry of `k` and, on success, build the native value
(spec §4.2, `host_to_native` algorithm for an integer host value). -/
def checkRange (n : ℤ) (k : PrimitiveKind) (mk : ℤ → NativeValue) :
    Except CoercionError NativeValue :=
  let b := bounds_for k
  if (n : ℚ) < b.min ∨ b.max < (n : ℚ) then .error .OutOfRange else .ok (mk n)

/-- Modelled from the spec: `host_to_native` on an exact integer host value
(spec §4.2): look up `bounds_for kind`; for integer kinds require
`min ≤ value ≤ max`; for char additionally require `value ≥ 0` first,
failing with NegativeForUnsigned (spec §4.2, §7, §8); for float/double
require the magnitude not to exceed the bound. -/
def hostIntToNative (n : ℤ) : PrimitiveKind → Except CoercionError NativeValue
  | .byte => checkRange n .byte .jbyte
  | .short => checkRange n .short .jshort
  | .int => checkRange n .int .jint
  | .long => checkRange n .long .jlong
  | .char =>
      if n < 0 then .error .NegativeForUnsigned else checkRange n .char .jchar
  | .boolean => checkRange n .boolean (fun m => .jboolean (m == 1))
  | .float =>
      if |(n : ℚ)| ≤ (bounds_for .float).max then .ok (.jfloat (n : ℚ))
      else .error .OutOfRange
  | .double =>
      if |(n : ℚ)| ≤ (bounds_for .double).max then .ok (.jdouble (n : ℚ))
      else .error .OutOfRange

/-- Modelled from the spec: `host_to_native` (spec §4.2).  An integer host
value takes the integer path.  A finite double into an integer kind must be
an exact integer (NonIntegral otherwise, spec §7) and is then range-checked;
into float/double its magnitude must not exceed the bound (OutOfRange
otherwise).  Infinities and NaN fail with NotFinite — the policy spec §9
leaves open is chosen here as rejection for every kind. -/
def host_to_native (value : HostValue) (kind : PrimitiveKind) :
    Except CoercionError NativeValue :=
  match value with
  | .int n => hostIntToNative n kind
  | .float q =>
      match kind with
      | .float =>
          if |q| ≤ (bounds_for .float).max then .ok (.jfloat q)
          else .error .OutOfRange
      | .double =>
          if |q| ≤ (bounds_for .double).max then .ok (.jdouble q)
          else .error .OutOfRange
      | k => if q.den = 1 then hostIntToNative q.num k else .error .NonIntegral
  | .posInf => .error .NotFinite
  | .negInf => .error .NotFinite
  | .nan => .error .NotFinite

/-- Modelled from the spec: `native_to_host` (spec §4.2), a total function —
no failure path exists for this direction.  The char bit pattern is
reinterpreted as unsigned 16-bit before widening; the signed kinds widen
their two's-complement value. -/
def native_to_host : NativeValue → HostValue
  | .jbyte b => .int (asSigned 8 b)
  | .jshort b => .int (asSigned 16 b)
  | .jint b => .int (asSigned 32 b)
  | .jlong b => .int (asSigned 64 b)
  | .jchar b => .int (asUnsigned 16 b)
  | .jfloat v => .float v
  | .jdouble v => .float v
  | .jboolean b => .int (cond b 1 0)

/-- The five integer kinds named by the round-trip law (spec §8). -/
def integerKinds : List PrimitiveKind := [.byte, .short, .int, .long, .char]

/-- The narrower/wider pairs of integer kinds whose ranges are nested:
byte ⊆ short ⊆ int ⊆ long and char ⊆ int ⊆ long. -/
def wideningPairs : List (PrimitiveKind × PrimitiveKind) :=
  [(.byte, .short), (.byte, .int), (.byte, .long), (.short, .int),
   (.short, .long), (.int, .long), (.char, .int), (.char, .long)]

instance {e a : Type} [DecidableEq e] [DecidableEq a] : DecidableEq (Except e a)
  | .ok x, .ok y =>
      if h : x = y then .isTrue (by rw [h]) else .isFalse (by simp [h])
  | .ok _, .error _ => .isFalse (by simp)
  | .error _, .ok _ => .isFalse (by simp)
  | .error x, .error y =>
      if h : x = y then .isTrue (by rw [h]) else .isFalse (by simp [h])

/-! ## Reduction lemmas: the rational range checks, expressed over ℤ -/

lemma hostIntToNative_byte (x : ℤ) :
    hostIntToNative x .byte =
      if x < JBYTE_MIN ∨ JBYTE_MAX < x then .error .OutOfRange
      else .ok (.jbyte x) := by
  have hcond : ((x : ℚ) < (bounds_for .byte).min ∨ (bounds_for .byte).max < (x : ℚ)) ↔
      (x < JBYTE_MIN ∨ JBYTE_MAX < x) := by
    simp only [bounds_for]
    exact or_congr Int.cast_lt Int.cast_lt
  simp only [hostIntToNative, checkRange, hcond]

lemma hostIntToNative_short (x : ℤ) :
    hostIntToNative x .short =
      if x < JSHORT_MIN ∨ JSHORT_MAX < x then .error .OutOfRange
      else .ok (.jshort x) := by
  have hcond : ((x : ℚ) < (bounds_for .short).min ∨ (bounds_for .short).max < (x : ℚ)) ↔
      (x < JSHORT_MIN ∨ JSHORT_MAX < x) := by
    simp only [bounds_for]
    exact or_congr Int.cast_lt Int.cast_lt
  simp only [hostIntToNative, checkRange, hcond]

lemma hostIntToNative_int (x : ℤ) :
    hostIntToNative x .int =
      if x < JINT_MIN ∨ JINT_MAX < x then .error .OutOfRange
      else .ok (.jint x) := by
  have hcond : ((x : ℚ) < (bounds_for .int).min ∨ (bounds_for .int).max < (x : ℚ)) ↔
      (x < JINT_MIN ∨ JINT_MAX < x) := by
    simp only [bounds_for]
    exact or_congr Int.cast_lt Int.cast_lt
  simp only [hostIntToNative, checkRange, hcond]

lemma hostIntToNative_long (x : ℤ) :
    hostIntToNative x .long =
      if x < JLONG_MIN ∨ JLONG_MAX < x then .error .OutOfRange
      else .ok (.jlong x) := by
  have hcond : ((x : ℚ) < (bounds_for .long).min ∨ (bounds_for .long).max < (x : ℚ)) ↔
      (x < JLONG_MIN ∨ JLONG_MAX < x) := by
    simp only [bounds_for]
    exact or_congr Int.cast_lt Int.cast_lt
  simp only [hostIntToNative, checkRange, hcond]

lemma hostIntToNative_char (x : ℤ) :
    hostIntToNative x .char =
      if x < 0 then .error .NegativeForUnsigned
      else if x < 0 ∨ JCHAR_MAX < x then .error .OutOfRange
      else .ok (.jchar x) := by
  have hcond : ((x : ℚ) < (bounds_for .char).min ∨ (bounds_for .char).max < (x : ℚ)) ↔
      (x < 0 ∨ JCHAR_MAX < x) := by
    simp only [bounds_for]
    exact or_congr (by exact_mod_cast Iff.rfl) Int.cast_lt
  simp only [hostIntToNative, checkRange, hcond]

lemma hostIntToNative_ok_byte {x : ℤ} {nv : NativeValue}
    (h : hostIntToNative x .byte = .ok nv) : JBYTE_MIN ≤ x ∧ x ≤ JBYTE_MAX := by
  rw [hostIntToNative_byte] at h
  by_cases hc : x < JBYTE_MIN ∨ JBYTE_MAX < x
  · rw [if_pos hc] at h; exact Except.noConfusion h
  · push_neg at hc; exact hc

lemma hostIntToNative_ok_short {x : ℤ} {nv : NativeValue}
    (h : hostIntToNative x .short = .ok nv) : JSHORT_MIN ≤ x ∧ x ≤ JSHORT_MAX := by
  rw [hostIntToNative_short] at h
  by_cases hc : x < JSHORT_MIN ∨ JSHORT_MAX < x
  · rw [if_pos hc] at h; exact Except.noConfusion h
  · push_neg at hc; exact hc

lemma hostIntToNative_ok_int {x : ℤ} {nv : NativeValue}
    (h : hostIntToNative x .int = .ok nv) : JINT_MIN ≤ x ∧ x ≤ JINT_MAX := by
  rw [hostIntToNative_int] at h
  by_cases hc : x < JINT_MIN ∨ JINT_MAX < x
  · rw [if_pos hc] at h; exact Except.noConfusion h
  · push_neg at hc; exact hc

lemma hostIntToNative_ok_char {x : ℤ} {nv : NativeValue}
    (h : hostIntToNative x .char = .ok nv) : 0 ≤ x ∧ x ≤ JCHAR_MAX := by
  rw [hostIntToNative_char] at h
  by_cases h0 : x < 0
  · rw [if_pos h0] at h; exact Except.noConfusion h
  · rw [if_neg h0] at h
    by_cases hc : x < 0 ∨ JCHAR_MAX < x
    · rw [if_pos hc] at h; exact Except.noConfusion h
    · push_neg at hc; exact hc

/-! ## Claim theorems -/

/-- C9: for every signed integer kind the defined bounds satisfy the
two's-complement identity `min = -(max) - 1`: `JBYTE_MIN = -(JBYTE_MAX)-1`,
`JSHORT_MIN = -(JSHORT_MAX)-1`, `JINT_MIN = -(JINT_MAX)-1`, and
`JLONG_MIN = -(JLONG_MAX)-1`. -/
theorem signed_bounds_twos_complement :
    JBYTE_MIN = -JBYTE_MAX - 1 ∧ JSHORT_MIN = -JSHORT_MAX - 1 ∧
    JINT_MIN = -JINT_MAX - 1 ∧ JLONG_MIN = -JLONG_MAX - 1 := by
  decide

/-- C5: the 64-bit long bounds are exactly `-2^63` and `2^63 - 1`, defined as
exact integer constants (the equalities below hold in ℤ, with no rounding:
`JLONG_MIN`/`JLONG_MAX` are integer literals, so no floating-point
intermediate is involved), and `host_to_native` at `JLONG_MIN` succeeds and
round-trips exactly through `native_to_host`. -/
theorem long_bounds_exact :
    JLONG_MIN = -9223372036854775808 ∧ JLONG_MAX = 9223372036854775807 ∧
    JLONG_MIN = -(2 ^ 63) ∧ JLONG_MAX = 2 ^ 63 - 1 ∧
    (bounds_for .long).min = ((-9223372036854775808 : ℤ) : ℚ) ∧
    (bounds_for .long).max = ((9223372036854775807 : ℤ) : ℚ) ∧
    host_to_native (.int (-9223372036854775808)) .long =
      .ok (.jlong (-9223372036854775808)) ∧
    native_to_host (.jlong (-9223372036854775808)) =
      .int (-9223372036854775808) := by
  decide

/-- C4: `host_to_native(65535, char)` succeeds, `native_to_host` of its
result returns exactly 65535 (nonnegative, not -1); the char bit pattern is
reinterpreted as unsigned 16-bit before widening (last conjunct), and char's
bounds are exactly 0 and 65535. -/
theorem char_unsigned_roundtrip :
    host_to_native (.int 65535) .char = .ok (.jchar 65535) ∧
    native_to_host (.jchar 65535) = .int 65535 ∧
    (0 : ℤ) ≤ 65535 ∧
    (bounds_for .char).max = ((65535 : ℤ) : ℚ) ∧
    (bounds_for .char).min = 0 ∧
    (∀ b : ℤ, native_to_host (.jchar b) = .int (b % 2 ^ 16)) := by
  refine ⟨by decide, by decide, by decide, by decide, by decide, fun b => rfl⟩

/-- C1: for every integer kind (byte, short, int, long, char) and every
integer `x` with `bounds_for(kind).min ≤ x ≤ bounds_for(kind).max`,
`host_to_native` succeeds and `native_to_host` of its result returns
exactly `x`. -/
theorem integer_roundtrip (k : PrimitiveKind) (hk : k ∈ integerKinds) (x : ℤ)
    (h1 : (bounds_for k).min ≤ (x : ℚ)) (h2 : (x : ℚ) ≤ (bounds_for k).max) :
    ∃ nv : NativeValue, host_to_native (.int x) k = .ok nv ∧
      native_to_host nv = .int x := by
  fin_cases hk
  · simp only [bounds_for] at h1 h2
    rw [Int.cast_le] at h1 h2
    refine ⟨.jbyte x, ?_, ?_⟩
    · show hostIntToNative x .byte = _
      rw [hostIntToNative_byte, if_neg (by push_neg; exact ⟨h1, h2⟩)]
    · show HostValue.int ((x + 2 ^ (8 - 1)) % 2 ^ 8 - 2 ^ (8 - 1)) = .int x
      simp only [JBYTE_MIN, JBYTE_MAX] at h1 h2
      norm_num
      omega
  · simp only [bounds_for] at h1 h2
    rw [Int.cast_le] at h1 h2
    refine ⟨.jshort x, ?_, ?_⟩
    · show hostIntToNative x .short = _
      rw [hostIntToNative_short, if_neg (by push_neg; exact ⟨h1, h2⟩)]
    · show HostValue.int ((x + 2 ^ (16 - 1)) % 2 ^ 16 - 2 ^ (16 - 1)) = .int x
      simp only [JSHORT_MIN, JSHORT_MAX] at h1 h2
      norm_num
      omega
  · simp only [bounds_for] at h1 h2
    rw [Int.cast_le] at h1 h2
    refine ⟨.jint x, ?_, ?_⟩
    · show hostIntToNative x .int = _
      rw [hostIntToNative_int, if_neg (by push_neg; exact ⟨h1, h2⟩)]
    · show HostValue.int ((x + 2 ^ (32 - 1)) % 2 ^ 32 - 2 ^ (32 - 1)) = .int x
      simp only [JINT_MIN, JINT_MAX] at h1 h2
      norm_num
      omega
  · simp only [bounds_for] at h1 h2
    rw [Int.cast_le] at h1 h2
    refine ⟨.jlong x, ?_, ?_⟩
    · show hostIntToNative x .long = _
      rw [hostIntToNative_long, if_neg (by push_neg; exact ⟨h1, h2⟩)]
    · show HostValue.int ((x + 2 ^ (64 - 1)) % 2 ^ 64 - 2 ^ (64 - 1)) = .int x
      simp only [JLONG_MIN, JLONG_MAX] at h1 h2
      norm_num
      omega
  · simp only [bounds_for] at h1 h2
    have h1 : (0 : ℤ) ≤ x := by exact_mod_cast h1
    rw [Int.cast_le] at h2
    refine ⟨.jchar x, ?_, ?_⟩
    · show hostIntToNative x .char = _
      rw [hostIntToNative_char, if_neg (not_lt.mpr h1),
        if_neg (by push_neg; exact ⟨h1, h2⟩)]
    · show HostValue.int (x % 2 ^ 16) = .int x
      simp only [JCHAR_MAX] at h2
      norm_num
      omega

/-- Witness for C1 at kind byte, `x = 127`. -/
theorem integer_roundtrip_witness :
    ∃ nv : NativeValue, host_to_native (.int 127) .byte = .ok nv ∧
      native_to_host nv = .int 127 :=
  integer_roundtrip .byte (by decide) 127 (by decide) (by decide)

/-- C2 counterexample: for kind char, `bounds_for(char).min - 1 = -1`, and
`host_to_native(-1, char)` fails with NegativeForUnsigned, not OutOfRange,
so the claim's below-minimum clause is false at kind char. -/
theorem boundary_below_char_counterexample :
    (bounds_for .char).min - 1 = ((-1 : ℤ) : ℚ) ∧
    host_to_native (.int (-1)) .char = .error .NegativeForUnsigned ∧
    host_to_native (.int (-1)) .char ≠ .error .OutOfRange := by
  refine ⟨by norm_num [bounds_for], by decide, by decide⟩

/-- C2 amended: for every integer kind `host_to_native(max + 1, kind)` fails
with OutOfRange; `host_to_native(min - 1, kind)` fails with OutOfRange for
the signed kinds byte, short, int and long, while for char `min - 1 = -1`
fails with NegativeForUnsigned; `host_to_native(2147483648, int)` fails with
OutOfRange, `host_to_native(128, byte)` fails with OutOfRange, and
`host_to_native(127, byte)` succeeds. -/
theorem boundary_exclusive_amended :
    (∀ k ∈ integerKinds, ∀ x : ℤ, (x : ℚ) = (bounds_for k).max + 1 →
        host_to_native (.int x) k = .error .OutOfRange) ∧
    (∀ k ∈ ([.byte, .short, .int, .long] : List PrimitiveKind), ∀ x : ℤ,
        (x : ℚ) = (bounds_for k).min - 1 →
        host_to_native (.int x) k = .error .OutOfRange) ∧
    host_to_native (.int (-1)) .char = .error .NegativeForUnsigned ∧
    host_to_native (.int 2147483648) .int = .error .OutOfRange ∧
    host_to_native (.int 128) .byte = .error .OutOfRange ∧
    host_to_native (.int 127) .byte = .ok (.jbyte 127) := by
  refine ⟨?_, ?_, by decide, by decide, by decide, by decide⟩
  · intro k hk
    fin_cases hk
    · intro x hx
      simp only [bounds_for] at hx
      have hx : x = JBYTE_MAX + 1 := by exact_mod_cast hx
      show hostIntToNative x .byte = _
      rw [hostIntToNative_byte, if_pos (by omega)]
    · intro x hx
      simp only [bounds_for] at hx
      have hx : x = JSHORT_MAX + 1 := by exact_mod_cast hx
      show hostIntToNative x .short = _
      rw [hostIntToNative_short, if_pos (by omega)]
    · intro x hx
      simp only [bounds_for] at hx
      have hx : x = JINT_MAX + 1 := by exact_mod_cast hx
      show hostIntToNative x .int = _
      rw [hostIntToNative_int, if_pos (by omega)]
    · intro x hx
      simp only [bounds_for] at hx
      have hx : x = JLONG_MAX + 1 := by exact_mod_cast hx
      show hostIntToNative x .long = _
      rw [hostIntToNative_long, if_pos (by omega)]
    · intro x hx
      simp only [bounds_for] at hx
      have hx : x = JCHAR_MAX + 1 := by exact_mod_cast hx
      simp only [JCHAR_MAX] at hx
      show hostIntToNative x .char = _
      rw [hostIntToNative_char, if_neg (by omega),
        if_pos (by simp only [JCHAR_MAX]; omega)]
  · intro k hk
    fin_cases hk
    · intro x hx
      simp only [bounds_for] at hx
      have hx : x = JBYTE_MIN - 1 := by exact_mod_cast hx
      show hostIntToNative x .byte = _
      rw [hostIntToNative_byte, if_pos (by omega)]
    · intro x hx
      simp only [bounds_for] at hx
      have hx : x = JSHORT_MIN - 1 := by exact_mod_cast hx
      show hostIntToNative x .short = _
      rw [hostIntToNative_short, if_pos (by omega)]
    · intro x hx
      simp only [bounds_for] at hx
      have hx : x = JINT_MIN - 1 := by exact_mod_cast hx
      show hostIntToNative x .int = _
      rw [hostIntToNative_int, if_pos (by omega)]
    · intro x hx
      simp only [bounds_for] at hx
      have hx : x = JLONG_MIN - 1 := by exact_mod_cast hx
      show hostIntToNative x .long = _
      rw [hostIntToNative_long, if_pos (by omega)]

/-- Witness for C2 (amended) at kind byte: `128 = max + 1` and
`-129 = min - 1` both fail with OutOfRange. -/
theorem boundary_exclusive_amended_witness :
    host_to_native (.int 128) .byte = .error .OutOfRange ∧
    host_to_native (.int (-129)) .byte = .error .OutOfRange :=
  ⟨boundary_exclusive_amended.1 .byte (by decide) 128
      (by norm_num [bounds_for, JBYTE_MAX]),
   boundary_exclusive_amended.2.1 .byte (by decide) (-129)
      (by norm_num [bounds_for, JBYTE_MIN])⟩

/-- C6: for every negative integer value, `host_to_native(value, char)`
fails with NegativeForUnsigned; in particular at `-1`, even though `-1`
lies within the 16-bit signed short bounds. -/
theorem char_rejects_negative (n : ℤ) (hn : n < 0) :
    host_to_native (.int n) .char = .error .NegativeForUnsigned ∧
    JSHORT_MIN ≤ -1 ∧ (-1 : ℤ) ≤ JSHORT_MAX := by
  refine ⟨?_, by decide, by decide⟩
  show hostIntToNative n .char = _
  rw [hostIntToNative_char, if_pos hn]

/-- Witness for C6 at `n = -1`. -/
theorem char_rejects_negative_witness :
    host_to_native (.int (-1)) .char = .error .NegativeForUnsigned ∧
    JSHORT_MIN ≤ -1 ∧ (-1 : ℤ) ≤ JSHORT_MAX :=
  char_rejects_negative (-1) (by decide)

/-- C8: `bounds_for` is total (every kind has an entry) and for every kind
`min ≤ max`; `min ≤ 0 ≤ max` for every signed kind, `0 ≤ max` for the
unsigned kinds, and exactly char and boolean are unsigned. -/
theorem bounds_table_invariants :
    (∀ k : PrimitiveKind, ∃ e : BoundaryEntry, bounds_for k = e) ∧
    ((bounds_for .char).signed = false ∧ (bounds_for .boolean).signed = false) ∧
    ∀ k : PrimitiveKind,
      (bounds_for k).min ≤ (bounds_for k).max ∧
      ((bounds_for k).signed = true →
        (bounds_for k).min ≤ 0 ∧ 0 ≤ (bounds_for k).max) ∧
      ((bounds_for k).signed = false → 0 ≤ (bounds_for k).max) := by
  refine ⟨fun k => ⟨bounds_for k, rfl⟩, ⟨rfl, rfl⟩, fun k => ?_⟩
  cases k <;>
    exact ⟨by norm_num [bounds_for, JBYTE_MIN, JBYTE_MAX, JSHORT_MIN, JSHORT_MAX,
        JINT_MIN, JINT_MAX, JLONG_MIN, JLONG_MAX, JCHAR_MAX, JFLOAT_MAX, JDOUBLE_MAX],
      fun _ => ⟨by norm_num [bounds_for, JBYTE_MIN, JSHORT_MIN, JINT_MIN, JLONG_MIN,
          JFLOAT_MAX, JDOUBLE_MAX],
        by norm_num [bounds_for, JBYTE_MAX, JSHORT_MAX, JINT_MAX, JLONG_MAX, JCHAR_MAX,
          JFLOAT_MAX, JDOUBLE_MAX]⟩,
      fun _ => by norm_num [bounds_for, JBYTE_MAX, JSHORT_MAX, JINT_MAX, JLONG_MAX,
        JCHAR_MAX, JFLOAT_MAX, JDOUBLE_MAX]⟩

/-- Witness for C8 at kind byte (signed): `min ≤ 0 ∧ 0 ≤ max`. -/
theorem bounds_table_invariants_witness :
    (bounds_for .byte).min ≤ 0 ∧ 0 ≤ (bounds_for .byte).max :=
  ((bounds_table_invariants.2.2 .byte).2.1) rfl

/-- C10: the integer ranges are strictly nested (byte ⊂ short ⊂ int ⊂ long,
and [0, JCHAR_MAX] ⊂ [JINT_MIN, JINT_MAX]), and any integer value accepted
by `host_to_native` for a narrower kind lies within the bounds of every
wider kind. -/
theorem integer_ranges_nested (p : PrimitiveKind × PrimitiveKind)
    (hp : p ∈ wideningPairs) (x : ℤ) (nv : NativeValue)
    (h : host_to_native (.int x) p.1 = .ok nv) :
    ((bounds_for p.2).min ≤ (x : ℚ) ∧ (x : ℚ) ≤ (bounds_for p.2).max) ∧
    (JSHORT_MIN < JBYTE_MIN ∧ JBYTE_MAX < JSHORT_MAX) ∧
    (JINT_MIN < JSHORT_MIN ∧ JSHORT_MAX < JINT_MAX) ∧
    (JLONG_MIN < JINT_MIN ∧ JINT_MAX < JLONG_MAX) ∧
    (JINT_MIN < 0 ∧ JCHAR_MAX < JINT_MAX) := by
  refine ⟨?_, by decide, by decide, by decide, by decide⟩
  fin_cases hp
  · replace h : hostIntToNative x .byte = .ok nv := h
    obtain ⟨h1, h2⟩ := hostIntToNative_ok_byte h
    simp only [JBYTE_MIN, JBYTE_MAX] at h1 h2
    constructor
    · show ((JSHORT_MIN : ℤ) : ℚ) ≤ (x : ℚ)
      exact Int.cast_le.mpr (by simp only [JSHORT_MIN]; omega)
    · show (x : ℚ) ≤ ((JSHORT_MAX : ℤ) : ℚ)
      exact Int.cast_le.mpr (by simp only [JSHORT_MAX]; omega)
  · replace h : hostIntToNative x .byte = .ok nv := h
    obtain ⟨h1, h2⟩ := hostIntToNative_ok_byte h
    simp only [JBYTE_MIN, JBYTE_MAX] at h1 h2
    constructor
    · show ((JINT_MIN : ℤ) : ℚ) ≤ (x : ℚ)
      exact Int.cast_le.mpr (by simp only [JINT_MIN]; omega)
    · show (x : ℚ) ≤ ((JINT_MAX : ℤ) : ℚ)
      exact Int.cast_le.mpr (by simp only [JINT_MAX]; omega)
  · replace h : hostIntToNative x .byte = .ok nv := h
    obtain ⟨h1, h2⟩ := hostIntToNative_ok_byte h
    simp only [JBYTE_MIN, JBYTE_MAX] at h1 h2
    constructor
    · show ((JLONG_MIN : ℤ) : ℚ) ≤ (x : ℚ)
      exact Int.cast_le.mpr (by simp only [JLONG_MIN]; omega)
    · show (x : ℚ) ≤ ((JLONG_MAX : ℤ) : ℚ)
      exact Int.cast_le.mpr (by simp only [JLONG_MAX]; omega)
  · replace h : hostIntToNative x .short = .ok nv := h
    obtain ⟨h1, h2⟩ := hostIntToNative_ok_short h
    simp only [JSHORT_MIN, JSHORT_MAX] at h1 h2
    constructor
    · show ((JINT_MIN : ℤ) : ℚ) ≤ (x : ℚ)
      exact Int.cast_le.mpr (by simp only [JINT_MIN]; omega)
    · show (x : ℚ) ≤ ((JINT_MAX : ℤ) : ℚ)
      exact Int.cast_le.mpr (by simp only [JINT_MAX]; omega)
  · replace h : hostIntToNative x .short = .ok nv := h
    obtain ⟨h1, h2⟩ := hostIntToNative_ok_short h
    simp only [JSHORT_MIN, JSHORT_MAX] at h1 h2
    constructor
    · show ((JLONG_MIN : ℤ) : ℚ) ≤ (x : ℚ)
      exact Int.cast_le.mpr (by simp only [JLONG_MIN]; omega)
    · show (x : ℚ) ≤ ((JLONG_MAX : ℤ) : ℚ)
      exact Int.cast_le.mpr (by simp only [JLONG_MAX]; omega)
  · replace h : hostIntToNative x .int = .ok nv := h
    obtain ⟨h1, h2⟩ := hostIntToNative_ok_int h
    simp only [JINT_MIN, JINT_MAX] at h1 h2
    constructor
    · show ((JLONG_MIN : ℤ) : ℚ) ≤ (x : ℚ)
      exact Int.cast_le.mpr (by simp only [JLONG_MIN]; omega)
    · show (x : ℚ) ≤ ((JLONG_MAX : ℤ) : ℚ)
      exact Int.cast_le.mpr (by simp only [JLONG_MAX]; omega)
  · replace h : hostIntToNative x .char = .ok nv := h
    obtain ⟨h1, h2⟩ := hostIntToNative_ok_char h
    simp only [JCHAR_MAX] at h2
    constructor
    · show ((JINT_MIN : ℤ) : ℚ) ≤ (x : ℚ)
      exact Int.cast_le.mpr (by simp only [JINT_MIN]; omega)
    · show (x : ℚ) ≤ ((JINT_MAX : ℤ) : ℚ)
      exact Int.cast_le.mpr (by simp only [JINT_MAX]; omega)
  · replace h : hostIntToNative x .char = .ok nv := h
    obtain ⟨h1, h2⟩ := hostIntToNative_ok_char h
    simp only [JCHAR_MAX] at h2
    constructor
    · show ((JLONG_MIN : ℤ) : ℚ) ≤ (x : ℚ)
      exact Int.cast_le.mpr (by simp only [JLONG_MIN]; omega)
    · show (x : ℚ) ≤ ((JLONG_MAX : ℤ) : ℚ)
      exact Int.cast_le.mpr (by simp only [JLONG_MAX]; omega)

/-- Witness for C10 at the pair (byte, short), `x = 5`. -/
theorem integer_ranges_nested_witness :
    (bounds_for .short).min ≤ ((5 : ℤ) : ℚ) ∧
    ((5 : ℤ) : ℚ) ≤ (bounds_for .short).max :=
  (integer_ranges_nested (.byte, .short) (by decide) 5 (.jbyte 5) (by decide)).1

/-- C3: `native_to_host` is total — its codomain is `HostValue`, with no
error component, so every fixed-width native value maps to a host value —
while the forward direction can fail with each error of the taxonomy
(OutOfRange, NegativeForUnsigned, NonIntegral, NotFinite), exhibited below;
the taxonomy thus applies only to the forward direction. -/
theorem reverse_total_forward_taxonomy :
    (∀ v : NativeValue, ∃ h : HostValue, native_to_host v = h) ∧
    (∃ v k, host_to_native v k = .error .OutOfRange) ∧
    (∃ v k, host_to_native v k = .error .NegativeForUnsigned) ∧
    (∃ v k, host_to_native v k = .error .NonIntegral) ∧
    (∃ v k, host_to_native v k = .error .NotFinite) :=
  ⟨fun v => ⟨native_to_host v, rfl⟩,
    ⟨.int 128, .byte, by decide⟩,
    ⟨.int (-1), .char, by decide⟩,
    ⟨.float ⟨1, 2, by decide, Nat.coprime_one_left 2⟩, .int, rfl⟩,
    ⟨.nan, .int, rfl⟩⟩

/-- C7: the float entry bounds negative values by the negation of its max;
`JFLOAT_MAX` (the exact value of the literal `3.40282347E+38`) lies within
half an ULP (`2^103`) of the IEEE single-precision maximum finite magnitude
`(2^24 - 1)·2^104` and below the overflow threshold `2^128`, so the literal
denotes that maximum; `host_to_native(3.4e38, float)` succeeds; and every
finite value whose magnitude exceeds the bound — in particular `3.5e38` —
fails with OutOfRange. -/
theorem float_bound_max_magnitude (q : ℚ) (hq : (bounds_for .float).max < |q|) :
    (bounds_for .float).max = JFLOAT_MAX ∧
    (bounds_for .float).min = -JFLOAT_MAX ∧
    |JFLOAT_MAX - ieeeSingleMaxFinite| < 2 ^ 103 ∧
    JFLOAT_MAX < 2 ^ 128 ∧
    host_to_native (.float (34 * 10 ^ 37)) .float =
      .ok (.jfloat (34 * 10 ^ 37)) ∧
    host_to_native (.float q) .float = .error .OutOfRange ∧
    host_to_native (.float (35 * 10 ^ 37)) .float = .error .OutOfRange := by
  refine ⟨rfl, rfl, ?_, ?_, ?_, ?_, ?_⟩
  · rw [abs_of_nonneg (by norm_num [JFLOAT_MAX, ieeeSingleMaxFinite])]
    norm_num [JFLOAT_MAX, ieeeSingleMaxFinite]
  · norm_num [JFLOAT_MAX]
  · have hle : |(34 * 10 ^ 37 : ℚ)| ≤ (bounds_for .float).max := by
      rw [abs_of_nonneg (by norm_num)]
      norm_num [bounds_for, JFLOAT_MAX]
    simp [host_to_native, hle]
  · simp only [host_to_native]
    rw [if_neg (not_le.mpr hq)]
  · have hgt : ¬ |(35 * 10 ^ 37 : ℚ)| ≤ (bounds_for .float).max := by
      rw [abs_of_nonneg (by norm_num)]
      norm_num [bounds_for, JFLOAT_MAX]
    simp [host_to_native, hgt]

/-- Witness for C7 at `q = 3.5e38`. -/
theorem float_bound_max_magnitude_witness :
    host_to_native (.float (35 * 10 ^ 37)) .float = .error .OutOfRange :=
  (float_bound_max_magnitude (35 * 10 ^ 37)
    (by rw [abs_of_nonneg (by norm_num)]
        norm_num [bounds_for, JFLOAT_MAX])).2.2.2.2.2.2

end Pyjvm
